import Mathlib

set_option linter.unusedVariables false

/-!
# Verification of the futures backtesting bot

Shallow embedding (over `ℚ`) of the core computational components of the
repository, together with theorems settling the frozen claims:

* `FuturesBacktestService` (src/services/futures_backtest_service.py):
  the per-bar trade simulator (`run_backtest` and its helpers).
* `BacktestRunner._calculate_optimization_score`
  (src/services/optimization/backtest_runner.py).
* The completion handler of `PerCoinOptimizer._process_symbols_in_batches`
  (src/services/per_coin_optimizer.py).
* `MACDSMAStrategy.generate_signals` (src/services/macd_sma_strategy.py),
  with pandas/talib NaN semantics made explicit via `Option ℚ`.

Python floats are modelled as exact rationals; timestamps as bar indices
(`ℕ`); pandas NaN as `Option.none`.
-/

namespace Bot

/-! ## Trade simulator: data model

Mirrors the `position` dict and the records appended by
`FuturesBacktestService.run_backtest`. -/

/-- TP/SL configuration held by `FuturesBacktestService` (`self.tp_base_percent`,
`self.sl_percent`, `self.max_tps`, `self.tp_close_percent`, plus
`self.commission_rate`).  The `tp_sl_params` update logic is dict merging; a
`SimConfig` value represents the post-merge parameter state. -/
structure SimConfig where
  commission_rate : ℚ
  tp_base_percent : ℚ
  sl_percent : ℚ
  max_tps : ℕ
  tp_close_percent : ℚ
deriving Repr, DecidableEq

/-- The constructor defaults of `FuturesBacktestService.__init__` when no
`tp_sl_params` is given: commission 0.0004, tp_base 0.5, sl 1.25,
max_tps 10, tp_close 0.25. -/
def defaultConfig : SimConfig :=
  { commission_rate := 0.0004
    tp_base_percent := 0.5
    sl_percent := 1.25
    max_tps := 10
    tp_close_percent := 0.25 }

/-- One entry of `position['tp_levels']` (`{'level', 'price', 'percent', 'hit'}`). -/
structure TpLevel where
  level : ℕ
  price : ℚ
  percent : ℚ
  hit : Bool
deriving Repr, DecidableEq

/-- The `position` dict of `run_backtest`.  `entry_time` is `None` when flat. -/
structure Position where
  size : ℚ
  entry_price : ℚ
  entry_time : Option ℕ
  direction : Int
  remaining_size : ℚ
  tps_hit : List ℕ
  trailing_stop : ℚ
  tp_levels : List TpLevel
  sl_level : ℚ
deriving Repr, DecidableEq

/-- The flat sentinel `{'size': 0, ..., 'sl_level': 0}` used at start and after
a full close. -/
def flatPosition : Position :=
  { size := 0, entry_price := 0, entry_time := none, direction := 0
    remaining_size := 0, tps_hit := [], trailing_stop := 0
    tp_levels := [], sl_level := 0 }

/-- Exit reasons returned by `_check_exit_conditions`.  The source uses the
strings `"Stop Loss"`, `"Trailing Stop"` and `f"TP{level}"`; `reasonString`
recovers them.  `run_backtest`'s `close_reason.startswith('TP')` test is
equivalent to matching the `tp` constructor, since the other two strings do
not start with `"TP"`. -/
inductive ExitReason
  | stopLoss
  | trailingStop
  | tp (level : ℕ)
deriving Repr, DecidableEq

/-- The exit-reason string stored in the trade record. -/
def reasonString : ExitReason → String
  | .stopLoss => "Stop Loss"
  | .trailingStop => "Trailing Stop"
  | .tp level => "TP" ++ toString level

/-- `_get_fixed_sl_level`: fixed SL at `sl_percent` from entry. -/
def get_fixed_sl_level (cfg : SimConfig) (entry_price : ℚ) (direction : Int) : ℚ :=
  if direction = 1 then entry_price * (1 - cfg.sl_percent / 100)
  else entry_price * (1 + cfg.sl_percent / 100)

/-- `_calculate_tp_sl_levels`: TP ladder (levels 1..max_tps) and the SL level.
The SL formula is written inline in the source exactly as in
`_get_fixed_sl_level`. -/
def calculate_tp_sl_levels (cfg : SimConfig) (entry_price : ℚ) (direction : Int) :
    List TpLevel × ℚ :=
  let tp_levels := (List.range' 1 cfg.max_tps).map (fun (i : ℕ) =>
    let tp_percent := cfg.tp_base_percent * (i : ℚ)
    let tp_price :=
      if direction = 1 then entry_price * (1 + tp_percent / 100)
      else entry_price * (1 - tp_percent / 100)
    { level := i, price := tp_price, percent := tp_percent, hit := false })
  let sl_price :=
    if direction = 1 then entry_price * (1 - cfg.sl_percent / 100)
    else entry_price * (1 + cfg.sl_percent / 100)
  (tp_levels, sl_price)

/-- The trigger test of the TP loop in `_check_exit_conditions`:
`not tp['hit']` and the price has crossed the level in the position's favor. -/
def tpTriggers (direction : Int) (current_price : ℚ) (tp : TpLevel) : Bool :=
  !tp.hit &&
    ((direction = 1 && current_price ≥ tp.price) ||
     (direction = -1 && current_price ≤ tp.price))

/-- The `for tp in position['tp_levels']` loop of `_check_exit_conditions`:
returns the updated level list (only the first triggering level marked hit)
and that level's number, or `none` when no unhit level triggers. -/
def scanTps (direction : Int) (current_price : ℚ) :
    List TpLevel → Option (List TpLevel × ℕ)
  | [] => none
  | tp :: rest =>
    if tpTriggers direction current_price tp then
      some ({ tp with hit := true } :: rest, tp.level)
    else
      match scanTps direction current_price rest with
      | some (rest2, lvl) => some (tp :: rest2, lvl)
      | none => none

/-- Result of `_check_exit_conditions`: the `(should_close, reason, percent)`
triple, plus the (possibly mutated) `tp_levels` and `tps_hit` lists, since the
Python code mutates `position` in place inside the TP loop. -/
structure ExitCheck where
  shouldClose : Bool
  reason : Option ExitReason
  closePercent : ℚ
  tp_levels : List TpLevel
  tps_hit : List ℕ
deriving Repr, DecidableEq

/-- `_check_exit_conditions`: fixed SL first, then the trailing stop (when
armed, i.e. `trailing_stop > 0`, clamped against the fixed SL), then the TP
scan.  The signal is *not* an input: the function only sees the position and
the current price. -/
def check_exit_conditions (cfg : SimConfig) (position : Position)
    (current_price : ℚ) : ExitCheck :=
  let entry_price := position.entry_price
  let direction := position.direction
  let fixed_sl := get_fixed_sl_level cfg entry_price direction
  if (direction = 1 ∧ current_price ≤ fixed_sl) ∨
     (direction = -1 ∧ current_price ≥ fixed_sl) then
    { shouldClose := true, reason := some .stopLoss, closePercent := 1
      tp_levels := position.tp_levels, tps_hit := position.tps_hit }
  else
    let tpScan : ExitCheck :=
      match scanTps direction current_price position.tp_levels with
      | some (newLevels, lvl) =>
        { shouldClose := true, reason := some (.tp lvl)
          closePercent := cfg.tp_close_percent
          tp_levels := newLevels, tps_hit := position.tps_hit ++ [lvl] }
      | none =>
        { shouldClose := false, reason := none, closePercent := 0
          tp_levels := position.tp_levels, tps_hit := position.tps_hit }
    if position.trailing_stop > 0 then
      if direction = 1 then
        if current_price ≤ max position.trailing_stop fixed_sl then
          { shouldClose := true, reason := some .trailingStop, closePercent := 1
            tp_levels := position.tp_levels, tps_hit := position.tps_hit }
        else tpScan
      else
        if current_price ≥ min position.trailing_stop fixed_sl then
          { shouldClose := true, reason := some .trailingStop, closePercent := 1
            tp_levels := position.tp_levels, tps_hit := position.tps_hit }
        else tpScan
    else tpScan

/-- The `effective_trailing_stop` computed inside `_check_exit_conditions`
(lines 245-251): the armed trailing stop clamped to never be worse than the
fixed SL. -/
def effectiveTrailingStop (cfg : SimConfig) (position : Position) : ℚ :=
  let fixed_sl := get_fixed_sl_level cfg position.entry_price position.direction
  if position.direction = 1 then max position.trailing_stop fixed_sl
  else min position.trailing_stop fixed_sl

/-- `_calculate_trailing_stop`: breakeven after the first TP, previous TP level
after the second and later, both clamped by the fixed SL; `0` when no TP has
been hit.  (`current_price` is an unused parameter in the source, kept.) -/
def calculate_trailing_stop (cfg : SimConfig) (position : Position)
    (current_price : ℚ) : ℚ :=
  let direction := position.direction
  let entry_price := position.entry_price
  let tps_hit_count := position.tps_hit.length
  let fixed_sl := get_fixed_sl_level cfg entry_price direction
  if tps_hit_count = 1 then
    let breakeven := entry_price
    if direction = 1 then max breakeven fixed_sl else min breakeven fixed_sl
  else if tps_hit_count ≥ 2 then
    let prev_tp_level := tps_hit_count - 1
    let prev_tp_percent := cfg.tp_base_percent * prev_tp_level
    if direction = 1 then
      max (entry_price * (1 + prev_tp_percent / 100)) fixed_sl
    else
      min (entry_price * (1 - prev_tp_percent / 100)) fixed_sl
  else 0

/-- `_close_position`: returns `(net_pnl, commission)` for closing
`close_percent` of the remaining size at `exit_price`. -/
def close_position (cfg : SimConfig) (position : Position)
    (exit_price close_percent leverage : ℚ) : ℚ × ℚ :=
  let entry_price := position.entry_price
  let direction := position.direction
  let size_to_close := position.remaining_size * close_percent
  let price_change_percent :=
    if direction = 1 then (exit_price - entry_price) / entry_price * 100
    else (entry_price - exit_price) / entry_price * 100
  let position_value := size_to_close * entry_price
  let pnl := price_change_percent / 100 * position_value * leverage
  let commission := position_value * cfg.commission_rate * 2
  (pnl - commission, commission)

/-- One record of `results['trades']`. -/
structure TradeRec where
  entry_time : Option ℕ
  exit_time : ℕ
  entry_price : ℚ
  exit_price : ℚ
  position_label : String
  pnl : ℚ
  commission : ℚ
  exit_reason : Option ExitReason
  size_closed : ℚ
deriving Repr, DecidableEq

/-- One record of `results['equity_curve']`. -/
structure EquityPoint where
  timestamp : ℕ
  balance : ℚ
  unrealized_pnl : ℚ
  equity : ℚ
deriving Repr, DecidableEq

/-- One record of `results['tp_sl_levels']`. -/
structure TpSlRecord where
  timestamp : ℕ
  entry_price : ℚ
  direction : Int
  tp_levels : List TpLevel
  sl_level : ℚ
deriving Repr, DecidableEq

/-- The mutable state threaded through the bar loop of `run_backtest`. -/
structure SimState where
  balance : ℚ
  position : Position
  total_trades : ℕ
  winning_trades : ℕ
  total_pnl : ℚ
  max_drawdown : ℚ
  peak_balance : ℚ
  trades : List TradeRec
  equity_curve : List EquityPoint
  tp_sl_levels : List TpSlRecord
deriving Repr, DecidableEq

/-- State at the top of the bar loop. -/
def initState (initial_balance : ℚ) : SimState :=
  { balance := initial_balance, position := flatPosition
    total_trades := 0, winning_trades := 0, total_pnl := 0
    max_drawdown := 0, peak_balance := initial_balance
    trades := [], equity_curve := [], tp_sl_levels := [] }

/-- Whether a close reason is a TP: `close_reason.startswith('TP')`. -/
def isTpReason : Option ExitReason → Bool
  | some (.tp _) => true
  | _ => false

/-- First phase of a bar of `run_backtest` (lines 66-116): if a position is
open, run the exit check; on a close, update balance/PnL/counters, record the
trade, and either shrink the remaining size (partial close, advancing the
trailing stop after a TP) or reset to the flat sentinel (full close). -/
def barClose (cfg : SimConfig) (leverage : ℚ) (t : ℕ) (current_price : ℚ)
    (s : SimState) : SimState :=
  if s.position.size ≠ 0 then
    let chk := check_exit_conditions cfg s.position current_price
    if chk.shouldClose then
      let pc := close_position cfg s.position current_price chk.closePercent leverage
      let pnl := pc.1
      let s1 : SimState :=
        { s with
          balance := s.balance + pnl
          total_pnl := s.total_pnl + pnl
          total_trades := s.total_trades + 1
          winning_trades := if pnl > 0 then s.winning_trades + 1 else s.winning_trades
          trades := s.trades ++
            [{ entry_time := s.position.entry_time, exit_time := t
               entry_price := s.position.entry_price, exit_price := current_price
               position_label := if s.position.direction = 1 then "Long" else "Short"
               pnl := pnl, commission := pc.2
               exit_reason := chk.reason, size_closed := chk.closePercent }] }
      if chk.closePercent < 1 then
        let pos1 : Position :=
          { s.position with
            tp_levels := chk.tp_levels, tps_hit := chk.tps_hit
            remaining_size := s.position.remaining_size * (1 - chk.closePercent) }
        let pos2 : Position :=
          if isTpReason chk.reason then
            { pos1 with trailing_stop := calculate_trailing_stop cfg pos1 current_price }
          else pos1
        { s1 with position := pos2 }
      else
        { s1 with position := flatPosition }
    else s
  else s

/-- Second phase of a bar (lines 119-150): open a new position when the signal
is nonzero and the position is flat *at this point* (the state possibly
already mutated by `barClose`), subject to the margin check. -/
def barEntry (cfg : SimConfig) (leverage margin_pct : ℚ) (t : ℕ)
    (current_price : ℚ) (signal : Int) (s : SimState) : SimState :=
  if signal ≠ 0 ∧ s.position.size = 0 then
    let margin_amount := s.balance * (margin_pct / 100)
    let position_value := margin_amount * leverage
    let position_size := position_value / current_price
    if s.balance ≥ margin_amount then
      let lv := calculate_tp_sl_levels cfg current_price signal
      { s with
        position :=
          { size := position_size, entry_price := current_price
            entry_time := some t, direction := signal
            remaining_size := position_size, tps_hit := []
            trailing_stop := 0, tp_levels := lv.1, sl_level := lv.2 }
        tp_sl_levels := s.tp_sl_levels ++
          [{ timestamp := t, entry_price := current_price, direction := signal
             tp_levels := lv.1, sl_level := lv.2 }] }
    else s
  else s

/-- Third phase of a bar (lines 152-174): unrealized PnL (computed from the
*current balance and margin*, line 159), the equity-curve row, and the
peak/drawdown update. -/
def barMark (leverage margin_pct : ℚ) (t : ℕ) (current_price : ℚ)
    (s : SimState) : SimState :=
  let unrealized_pnl :=
    if s.position.size ≠ 0 then
      let price_change := current_price - s.position.entry_price
      let price_change :=
        if s.position.direction = -1 then -price_change else price_change
      price_change / s.position.entry_price * 100 * leverage *
        (s.balance * margin_pct / 100) / 100
    else 0
  let current_equity := s.balance + unrealized_pnl
  let s1 : SimState :=
    { s with equity_curve := s.equity_curve ++
        [{ timestamp := t, balance := s.balance
           unrealized_pnl := unrealized_pnl, equity := current_equity }] }
  if current_equity > s1.peak_balance then
    { s1 with peak_balance := current_equity }
  else
    let drawdown := (s1.peak_balance - current_equity) / s1.peak_balance
    { s1 with max_drawdown := max s1.max_drawdown drawdown }

/-- One iteration of the `for timestamp, row in signals.iterrows()` loop:
close check, then entry check, then equity/drawdown accounting. -/
def processBar (cfg : SimConfig) (leverage margin_pct : ℚ) (t : ℕ)
    (current_price : ℚ) (signal : Int) (s : SimState) : SimState :=
  barMark leverage margin_pct t current_price
    (barEntry cfg leverage margin_pct t current_price signal
      (barClose cfg leverage t current_price s))

/-- One row of the `signals` frame as consumed by `run_backtest`
(columns `price` and `signal`); the timestamp is the bar index. -/
structure SignalRow where
  price : ℚ
  signal : Int
deriving Repr, DecidableEq

/-- The bar loop of `run_backtest`: fold `processBar` over the signal rows in
chronological order. -/
def runSim (cfg : SimConfig) (signals : List SignalRow)
    (initial_balance leverage margin_pct : ℚ) : SimState :=
  signals.enum.foldl
    (fun s p => processBar cfg leverage margin_pct p.1 p.2.price p.2.signal s)
    (initState initial_balance)

/-- The `results['statistics']` record of `run_backtest`. -/
structure Statistics where
  initial_balance : ℚ
  final_balance : ℚ
  total_return : ℚ
  total_pnl : ℚ
  total_trades : ℕ
  winning_trades : ℕ
  win_rate : ℚ
  max_drawdown : ℚ
deriving Repr, DecidableEq

/-- The full result of `run_backtest` (trades, equity curve, TP/SL chart
records, statistics). -/
structure BacktestResults where
  trades : List TradeRec
  equity_curve : List EquityPoint
  tp_sl_levels : List TpSlRecord
  statistics : Statistics
deriving Repr, DecidableEq

/-- `run_backtest` (lines 62-199): the bar loop followed by the statistics
block. -/
def run_backtest (cfg : SimConfig) (signals : List SignalRow)
    (initial_balance leverage margin_pct : ℚ) : BacktestResults :=
  let s := runSim cfg signals initial_balance leverage margin_pct
  let win_rate : ℚ :=
    if s.total_trades > 0 then (s.winning_trades : ℚ) / s.total_trades * 100 else 0
  { trades := s.trades
    equity_curve := s.equity_curve
    tp_sl_levels := s.tp_sl_levels
    statistics :=
      { initial_balance := initial_balance
        final_balance := s.balance
        total_return := (s.balance - initial_balance) / initial_balance * 100
        total_pnl := s.total_pnl
        total_trades := s.total_trades
        winning_trades := s.winning_trades
        win_rate := win_rate
        max_drawdown := s.max_drawdown * 100 } }

end Bot

/-! The concrete evaluations below compute with exact rationals in the kernel;
the Batteries `Rat` operations are `@[irreducible]` only to keep `simp` from
unfolding them, so we restore semireducibility for this development. -/

unseal Rat.add Rat.mul Rat.sub Rat.inv Rat.ofScientific

namespace Bot

/-! ## Helper lemmas about the bar phases -/

/-- `barClose` never touches the equity curve. -/
lemma barClose_equity_curve (cfg : SimConfig) (leverage : ℚ) (t : ℕ)
    (price : ℚ) (s : SimState) :
    (barClose cfg leverage t price s).equity_curve = s.equity_curve := by
  simp only [barClose]
  repeat' split
  all_goals rfl

/-- `barEntry` never touches the equity curve. -/
lemma barEntry_equity_curve (cfg : SimConfig) (leverage margin_pct : ℚ) (t : ℕ)
    (price : ℚ) (signal : Int) (s : SimState) :
    (barEntry cfg leverage margin_pct t price signal s).equity_curve =
      s.equity_curve := by
  simp only [barEntry]
  repeat' split
  all_goals rfl

/-- `barMark` appends exactly one equity row, whose `equity` field is by
construction the sum of its `balance` and `unrealized_pnl` fields. -/
lemma barMark_equity_curve (leverage margin_pct : ℚ) (t : ℕ) (price : ℚ)
    (s : SimState) :
    ∃ row, (barMark leverage margin_pct t price s).equity_curve =
        s.equity_curve ++ [row] ∧
      row.equity = row.balance + row.unrealized_pnl := by
  simp only [barMark]
  repeat' split
  all_goals exact ⟨_, rfl, rfl⟩

/-- Each processed bar appends exactly one equity row with
`equity = balance + unrealized_pnl`. -/
lemma processBar_equity_curve (cfg : SimConfig) (leverage margin_pct : ℚ)
    (t : ℕ) (price : ℚ) (signal : Int) (s : SimState) :
    ∃ row, (processBar cfg leverage margin_pct t price signal s).equity_curve =
        s.equity_curve ++ [row] ∧
      row.equity = row.balance + row.unrealized_pnl := by
  unfold processBar
  obtain ⟨row, h1, h2⟩ := barMark_equity_curve leverage margin_pct t price
    (barEntry cfg leverage margin_pct t price signal
      (barClose cfg leverage t price s))
  exact ⟨row, by rw [h1, barEntry_equity_curve, barClose_equity_curve], h2⟩

/-- Invariant of the bar loop: one equity row per processed bar, each row
balancing `equity = balance + unrealized_pnl`. -/
lemma foldl_equity_invariant (cfg : SimConfig) (leverage margin_pct : ℚ) :
    ∀ (l : List (ℕ × SignalRow)) (s : SimState),
      (∀ r ∈ s.equity_curve, r.equity = r.balance + r.unrealized_pnl) →
      ((l.foldl
          (fun s p => processBar cfg leverage margin_pct p.1 p.2.price p.2.signal s)
          s).equity_curve.length = s.equity_curve.length + l.length ∧
        ∀ r ∈ (l.foldl
          (fun s p => processBar cfg leverage margin_pct p.1 p.2.price p.2.signal s)
          s).equity_curve, r.equity = r.balance + r.unrealized_pnl)
  | [], s, h => by simpa using h
  | p :: l, s, h => by
    obtain ⟨row, h1, h2⟩ := processBar_equity_curve cfg leverage margin_pct
      p.1 p.2.price p.2.signal s
    have ih := foldl_equity_invariant cfg leverage margin_pct l
      (processBar cfg leverage margin_pct p.1 p.2.price p.2.signal s)
      (by
        intro r hr
        rw [h1] at hr
        rcases List.mem_append.1 hr with hr | hr
        · exact h r hr
        · simpa [List.mem_singleton.1 hr] using h2)
    refine ⟨?_, ih.2⟩
    simp only [List.foldl_cons]
    rw [ih.1, h1]
    simp [List.length_append]
    omega


/-! ## Claim C1: opposite-signal force-close

`run_backtest`'s close block only consults `_check_exit_conditions`, which
never reads the bar's signal, and the entry block requires a flat position;
so an opposite signal while a position is open does nothing.  This
contradicts the comment over the close block ("Close existing position if
opposite signal or TP/SL hit") and the spec.  Concrete run: a long is opened
at price 100 on bar 0 (balance 1000, leverage 1, margin 10%); bar 1 has price
100 (no SL/TP/trailing level is touched) and signal `-1`. -/

/-- **C1** (code_bug evidence): on the opposite-signal bar the simulator
records no trade and still holds the original long position opened on bar 0;
the claimed forced full close does not happen. -/
theorem C1_opposite_signal_ignored :
    (runSim defaultConfig [⟨100, 1⟩, ⟨100, -1⟩] 1000 1 10).trades = [] ∧
    (runSim defaultConfig [⟨100, 1⟩, ⟨100, -1⟩] 1000 1 10).position.direction = 1 ∧
    (runSim defaultConfig [⟨100, 1⟩, ⟨100, -1⟩] 1000 1 10).position.entry_time =
      some 0 ∧
    (runSim defaultConfig [⟨100, 1⟩, ⟨100, -1⟩] 1000 1 10).position.size ≠ 0 := by
  decide

/-! ## Claim C2: equity-curve rows -/

/-- **C2** (amended): `run_backtest` appends exactly one equity-curve row per
bar regardless of position state, and every row satisfies
`equity = balance + unrealized_pnl`.  (The unrealized-PnL *formula* part of
the original claim is refuted by `C2_unrealized_formula_cex`.) -/
theorem C2_equity_rows (cfg : SimConfig) (signals : List SignalRow)
    (initial_balance leverage margin_pct : ℚ) :
    (runSim cfg signals initial_balance leverage margin_pct).equity_curve.length =
      signals.length ∧
    ∀ r ∈ (runSim cfg signals initial_balance leverage margin_pct).equity_curve,
      r.equity = r.balance + r.unrealized_pnl := by
  have h := foldl_equity_invariant cfg leverage margin_pct signals.enum
    (initState initial_balance) (by intro r hr; simp [initState] at hr)
  constructor
  · have := h.1
    simpa [runSim, initState, List.enum_length] using this
  · exact h.2

/-- **C2** (counterexample): with balance 1000, leverage 2, margin 100%, a
long opened at 100 with remaining size 20 and marked at price 100.4, the
recorded `unrealized_pnl` is 8 — the balance-and-margin-based value
`price_change_pct/100 x leverage x (balance x margin/100)` — and *not* the
claimed remaining-size-based value
`price_change_fraction x remaining_size x entry_price x leverage = 16`. -/
theorem C2_unrealized_formula_cex :
    (runSim defaultConfig [⟨100, 1⟩] 1000 2 100).position.remaining_size = 20 ∧
    (runSim defaultConfig [⟨100, 1⟩] 1000 2 100).position.entry_price = 100 ∧
    (runSim defaultConfig [⟨100, 1⟩, ⟨502/5, 0⟩] 1000 2 100).equity_curve =
      [⟨0, 1000, 0, 1000⟩, ⟨1, 1000, 8, 1008⟩] ∧
    (8 : ℚ) ≠ (502/5 - 100) / 100 * 20 * 100 * 2 := by
  decide

/-! ## Claim C9: same-bar close-then-reopen -/

/-- **C9** (counterexample): bar 0 opens a long at 100 (fixed SL 98.75);
bar 1 has price 95 (stop-loss hit, full close) and signal `+1`.  The very
same bar opens a fresh position (`entry_time = some 1`), so a bar that fully
closes a position *can* also open a new one. -/
theorem C9_same_bar_reopen_cex :
    (runSim defaultConfig [⟨100, 1⟩, ⟨95, 1⟩] 1000 1 10).trades.length = 1 ∧
    ((runSim defaultConfig [⟨100, 1⟩, ⟨95, 1⟩] 1000 1 10).trades.head?.map
      (fun tr => (tr.exit_time, tr.exit_reason, tr.size_closed))) =
      some (1, some .stopLoss, 1) ∧
    (runSim defaultConfig [⟨100, 1⟩, ⟨95, 1⟩] 1000 1 10).position.entry_time =
      some 1 ∧
    (runSim defaultConfig [⟨100, 1⟩, ⟨95, 1⟩] 1000 1 10).position.size ≠ 0 := by
  decide

/-- **C9** (amended): a full close resets the position to the flat sentinel
*before* the entry check of the same bar runs, so a nonzero signal on the
closing bar opens a new position on that bar (provided the margin check holds
and the computed position size is nonzero); entry only requires flatness at
entry-check time, not at the start of the bar. -/
theorem C9_same_bar_reopen (cfg : SimConfig) (leverage margin_pct : ℚ)
    (t : ℕ) (price : ℚ) (signal : Int) (s : SimState)
    (hsig : signal ≠ 0)
    (hflat : (barClose cfg leverage t price s).position.size = 0)
    (hmargin : (barClose cfg leverage t price s).balance ≥
      (barClose cfg leverage t price s).balance * (margin_pct / 100))
    (hsize : (barClose cfg leverage t price s).balance * (margin_pct / 100) *
      leverage / price ≠ 0) :
    (barEntry cfg leverage margin_pct t price signal
        (barClose cfg leverage t price s)).position.entry_time = some t ∧
    (barEntry cfg leverage margin_pct t price signal
        (barClose cfg leverage t price s)).position.size ≠ 0 := by
  have hc : signal ≠ 0 ∧ (barClose cfg leverage t price s).position.size = 0 :=
    ⟨hsig, hflat⟩
  simp only [barEntry]
  rw [if_pos hc, if_pos hmargin]
  exact ⟨rfl, hsize⟩

/-- Witness for `C9_same_bar_reopen` at the concrete scenario of
`C9_same_bar_reopen_cex` after bar 0 (long at 100, SL closes at 95, signal
`+1` on the closing bar). -/
theorem C9_same_bar_reopen_witness :
    (barEntry defaultConfig 1 10 1 95 1
        (barClose defaultConfig 1 1 95
          (runSim defaultConfig [⟨100, 1⟩] 1000 1 10))).position.entry_time =
      some 1 ∧
    (barEntry defaultConfig 1 10 1 95 1
        (barClose defaultConfig 1 1 95
          (runSim defaultConfig [⟨100, 1⟩] 1000 1 10))).position.size ≠ 0 := by
  exact C9_same_bar_reopen defaultConfig 1 10 1 95 1
    (runSim defaultConfig [⟨100, 1⟩] 1000 1 10)
    (by decide) (by decide) (by decide) (by decide)

/-! ## Claims C6 and C8: exit-check priority, trailing-stop clamping -/

/-- The fixed stop-loss trigger of `_check_exit_conditions` (lines 238-239). -/
def slHit (cfg : SimConfig) (position : Position) (current_price : ℚ) : Prop :=
  (position.direction = 1 ∧
    current_price ≤ get_fixed_sl_level cfg position.entry_price position.direction) ∨
  (position.direction = -1 ∧
    current_price ≥ get_fixed_sl_level cfg position.entry_price position.direction)

instance (cfg : SimConfig) (position : Position) (current_price : ℚ) :
    Decidable (slHit cfg position current_price) := by
  unfold slHit; infer_instance

/-- The trailing stop is armed: `position['trailing_stop'] > 0` (line 243),
which happens exactly when a TP hit has set it. -/
def trailingArmed (position : Position) : Prop := position.trailing_stop > 0

instance (position : Position) : Decidable (trailingArmed position) := by
  unfold trailingArmed; infer_instance

/-- The armed-trailing-stop trigger of `_check_exit_conditions`
(lines 246-253), expressed through the clamped `effectiveTrailingStop`. -/
def trailingHit (cfg : SimConfig) (position : Position) (current_price : ℚ) : Prop :=
  if position.direction = 1 then
    current_price ≤ effectiveTrailingStop cfg position
  else
    current_price ≥ effectiveTrailingStop cfg position

instance (cfg : SimConfig) (position : Position) (current_price : ℚ) :
    Decidable (trailingHit cfg position current_price) := by
  unfold trailingHit; infer_instance

/-- The TP loop finds the first unhit triggering level: `none` case. -/
lemma scanTps_none (d : Int) (p : ℚ) :
    ∀ l : List TpLevel, l.findIdx? (tpTriggers d p) = none → scanTps d p l = none
  | [], _ => rfl
  | tp :: rest, h => by
    by_cases htr : tpTriggers d p tp
    · simp [List.findIdx?_cons, htr] at h
    · simp only [List.findIdx?_cons, List.findIdx?_succ, htr, Bool.false_eq_true,
        if_false, Option.map_eq_none'] at h
      simp [scanTps, htr, scanTps_none d p rest h]

/-- The TP loop finds the first unhit triggering level: `some` case; only the
found level is marked hit (`List.set`). -/
lemma scanTps_some (d : Int) (p : ℚ) :
    ∀ (l : List TpLevel) (j : ℕ) (tp : TpLevel),
      l.findIdx? (tpTriggers d p) = some j → l[j]? = some tp →
      scanTps d p l = some (l.set j { tp with hit := true }, tp.level)
  | [], j, tp, h, _ => by simp at h
  | x :: rest, j, tp, h, hget => by
    by_cases htr : tpTriggers d p x
    · simp only [List.findIdx?_cons, htr, if_true] at h
      obtain rfl : (0 : ℕ) = j := Option.some_injective _ h
      obtain rfl : x = tp := by simpa using hget
      simp [scanTps, htr]
    · simp only [List.findIdx?_cons, List.findIdx?_succ, htr, Bool.false_eq_true,
        if_false] at h
      obtain ⟨j', hj', rfl⟩ := Option.map_eq_some'.1 h
      have hget' : rest[j']? = some tp := by simpa using hget
      simp [scanTps, htr, scanTps_some d p rest j' tp hj' hget']

/-- **C6**: the exit checks of `_check_exit_conditions` run in the fixed
priority order fixed SL → armed trailing stop → TP ladder; each fires a
single exit reason ("Stop Loss" and "Trailing Stop" close 100%, a TP closes
the `tp_close` fraction); the TP scan fires at the *first* unhit level whose
price is crossed and marks exactly that level as hit. -/
theorem C6_exit_priority (cfg : SimConfig) (position : Position)
    (current_price : ℚ) :
    (slHit cfg position current_price →
      check_exit_conditions cfg position current_price =
        { shouldClose := true, reason := some .stopLoss, closePercent := 1
          tp_levels := position.tp_levels, tps_hit := position.tps_hit }) ∧
    (¬ slHit cfg position current_price →
      trailingArmed position → trailingHit cfg position current_price →
      check_exit_conditions cfg position current_price =
        { shouldClose := true, reason := some .trailingStop, closePercent := 1
          tp_levels := position.tp_levels, tps_hit := position.tps_hit }) ∧
    (¬ slHit cfg position current_price →
      ¬ (trailingArmed position ∧ trailingHit cfg position current_price) →
      (∀ j tp,
        position.tp_levels.findIdx? (tpTriggers position.direction current_price) =
          some j →
        position.tp_levels[j]? = some tp →
        check_exit_conditions cfg position current_price =
          { shouldClose := true, reason := some (.tp tp.level)
            closePercent := cfg.tp_close_percent
            tp_levels := position.tp_levels.set j { tp with hit := true }
            tps_hit := position.tps_hit ++ [tp.level] }) ∧
      (position.tp_levels.findIdx? (tpTriggers position.direction current_price) =
          none →
        check_exit_conditions cfg position current_price =
          { shouldClose := false, reason := none, closePercent := 0
            tp_levels := position.tp_levels, tps_hit := position.tps_hit })) := by
  refine ⟨?_, ?_, ?_⟩
  · intro h
    simp only [check_exit_conditions]
    split
    next => rfl
    next hc => exact absurd h hc
  · intro hns harm hth
    simp only [check_exit_conditions]
    split
    next hc => exact absurd hc hns
    next hc =>
      split
      next harm2 =>
        split
        next hd =>
          split
          next => rfl
          next hle =>
            refine absurd ?_ hle
            simp only [trailingHit, effectiveTrailingStop] at hth
            rw [if_pos hd, if_pos hd] at hth
            exact hth
        next hd =>
          split
          next => rfl
          next hle =>
            refine absurd ?_ hle
            simp only [trailingHit, effectiveTrailingStop] at hth
            rw [if_neg hd, if_neg hd] at hth
            exact hth
      next harm2 => exact absurd harm harm2
  · intro hns hnt
    constructor
    · intro j tp hfind hget
      simp only [check_exit_conditions]
      rw [scanTps_some position.direction current_price
        position.tp_levels j tp hfind hget]
      split
      next hc => exact absurd hc hns
      next hc =>
        split
        next harm2 =>
          split
          next hd =>
            split
            next hle =>
              refine absurd ⟨harm2, ?_⟩ hnt
              simp only [trailingHit, effectiveTrailingStop]
              rw [if_pos hd, if_pos hd]
              exact hle
            next hle => rfl
          next hd =>
            split
            next hle =>
              refine absurd ⟨harm2, ?_⟩ hnt
              simp only [trailingHit, effectiveTrailingStop]
              rw [if_neg hd, if_neg hd]
              exact hle
            next hle => rfl
        next harm2 => rfl
    · intro hfind
      simp only [check_exit_conditions]
      rw [scanTps_none position.direction current_price position.tp_levels hfind]
      split
      next hc => exact absurd hc hns
      next hc =>
        split
        next harm2 =>
          split
          next hd =>
            split
            next hle =>
              refine absurd ⟨harm2, ?_⟩ hnt
              simp only [trailingHit, effectiveTrailingStop]
              rw [if_pos hd, if_pos hd]
              exact hle
            next hle => rfl
          next hd =>
            split
            next hle =>
              refine absurd ⟨harm2, ?_⟩ hnt
              simp only [trailingHit, effectiveTrailingStop]
              rw [if_neg hd, if_neg hd]
              exact hle
            next hle => rfl
        next harm2 => rfl

/-- Witness for `C6_exit_priority`: a long position with entry 100 under the
default config (fixed SL 98.75) marked at price 90 triggers the "Stop Loss"
branch. -/
theorem C6_exit_priority_witness :
    check_exit_conditions defaultConfig
      { size := 1, entry_price := 100, entry_time := some 0, direction := 1
        remaining_size := 1, tps_hit := [], trailing_stop := 0
        tp_levels := [], sl_level := 98.75 } 90 =
      { shouldClose := true, reason := some .stopLoss, closePercent := 1
        tp_levels := [], tps_hit := [] } :=
  (C6_exit_priority defaultConfig
    { size := 1, entry_price := 100, entry_time := some 0, direction := 1
      remaining_size := 1, tps_hit := [], trailing_stop := 0
      tp_levels := [], sl_level := 98.75 } 90).1 (by decide)

/-- **C8**: whenever the trailing stop is armed, the effective trailing stop
used by the exit check is at least as favorable to the trader as the fixed
stop-loss (`≥` for longs, `≤` for shorts); and the value written by
`_calculate_trailing_stop` after any TP hit satisfies the same bound. -/
theorem C8_trailing_not_worse_than_sl (cfg : SimConfig) (position : Position)
    (current_price : ℚ) :
    (trailingArmed position →
      (position.direction = 1 →
        effectiveTrailingStop cfg position ≥
          get_fixed_sl_level cfg position.entry_price position.direction) ∧
      (position.direction = -1 →
        effectiveTrailingStop cfg position ≤
          get_fixed_sl_level cfg position.entry_price position.direction)) ∧
    (position.tps_hit ≠ [] →
      (position.direction = 1 →
        calculate_trailing_stop cfg position current_price ≥
          get_fixed_sl_level cfg position.entry_price position.direction) ∧
      (position.direction = -1 →
        calculate_trailing_stop cfg position current_price ≤
          get_fixed_sl_level cfg position.entry_price position.direction)) := by
  constructor
  · intro _
    constructor
    · intro hd
      simp only [effectiveTrailingStop]
      rw [if_pos hd]
      exact le_max_right _ _
    · intro hd
      simp only [effectiveTrailingStop]
      rw [if_neg (by rw [hd]; decide)]
      exact min_le_right _ _
  · intro hne
    have hlen : 0 < position.tps_hit.length := List.length_pos.2 hne
    constructor
    · intro hd
      simp only [calculate_trailing_stop]
      by_cases h1 : position.tps_hit.length = 1
      · rw [if_pos h1, if_pos hd]
        exact le_max_right _ _
      · rw [if_neg h1, if_pos (by omega : position.tps_hit.length ≥ 2), if_pos hd]
        exact le_max_right _ _
    · intro hd
      have hd1 : ¬ position.direction = 1 := by rw [hd]; decide
      simp only [calculate_trailing_stop]
      by_cases h1 : position.tps_hit.length = 1
      · rw [if_pos h1, if_neg hd1]
        exact min_le_right _ _
      · rw [if_neg h1, if_pos (by omega : position.tps_hit.length ≥ 2), if_neg hd1]
        exact min_le_right _ _

/-- Witness for `C8_trailing_not_worse_than_sl`: a long with entry 100,
trailing stop 100 armed after TP1, under the default config (fixed SL 98.75):
both the effective trailing stop and the freshly computed trailing stop are
`≥` the fixed SL. -/
theorem C8_trailing_not_worse_than_sl_witness :
    effectiveTrailingStop defaultConfig
      { size := 1, entry_price := 100, entry_time := some 0, direction := 1
        remaining_size := 3/4, tps_hit := [1], trailing_stop := 100
        tp_levels := [], sl_level := 98.75 } ≥
      get_fixed_sl_level defaultConfig 100 1 ∧
    calculate_trailing_stop defaultConfig
      { size := 1, entry_price := 100, entry_time := some 0, direction := 1
        remaining_size := 3/4, tps_hit := [1], trailing_stop := 100
        tp_levels := [], sl_level := 98.75 } 100.5 ≥
      get_fixed_sl_level defaultConfig 100 1 :=
  ⟨((C8_trailing_not_worse_than_sl defaultConfig
      { size := 1, entry_price := 100, entry_time := some 0, direction := 1
        remaining_size := 3/4, tps_hit := [1], trailing_stop := 100
        tp_levels := [], sl_level := 98.75 } 100.5).1 (by decide)).1 rfl,
   ((C8_trailing_not_worse_than_sl defaultConfig
      { size := 1, entry_price := 100, entry_time := some 0, direction := 1
        remaining_size := 3/4, tps_hit := [1], trailing_stop := 100
        tp_levels := [], sl_level := 98.75 } 100.5).2 (by decide)).1 rfl⟩

/-! ## Claim C10: TP exits are partial; flat only via SL/trailing -/

/-- Classification of `_check_exit_conditions` outcomes: either no close
(`should_close` false, empty reason, 0%), or a full (100%) "Stop Loss" or
"Trailing Stop" close, or a `tp_close`-fraction TP close. -/
lemma check_exit_cases (cfg : SimConfig) (position : Position)
    (current_price : ℚ) :
    ((check_exit_conditions cfg position current_price).shouldClose = false ∧
      (check_exit_conditions cfg position current_price).reason = none ∧
      (check_exit_conditions cfg position current_price).closePercent = 0) ∨
    ((check_exit_conditions cfg position current_price).reason = some .stopLoss ∧
      (check_exit_conditions cfg position current_price).closePercent = 1) ∨
    ((check_exit_conditions cfg position current_price).reason = some .trailingStop ∧
      (check_exit_conditions cfg position current_price).closePercent = 1) ∨
    (∃ lvl,
      (check_exit_conditions cfg position current_price).reason = some (.tp lvl) ∧
      (check_exit_conditions cfg position current_price).closePercent =
        cfg.tp_close_percent) := by
  simp only [check_exit_conditions]
  repeat' split
  all_goals simp

/-- A well-formed closed-trade record under config `cfg`: a TP close takes the
`tp_close` fraction, and a 100% close can only be "Stop Loss" or
"Trailing Stop". -/
def tradeOk (cfg : SimConfig) (tr : TradeRec) : Prop :=
  (∀ lvl, tr.exit_reason = some (.tp lvl) →
    tr.size_closed = cfg.tp_close_percent) ∧
  (tr.size_closed = 1 →
    tr.exit_reason = some .stopLoss ∨ tr.exit_reason = some .trailingStop)

/-- Any trade record built from a `_check_exit_conditions` result is
well-formed, provided `tp_close_percent < 1`. -/
lemma tradeOk_of_check (cfg : SimConfig) (position : Position) (price : ℚ)
    (h2 : cfg.tp_close_percent < 1) (et : Option ℕ) (xt : ℕ) (ep xp : ℚ)
    (lbl : String) (pnl comm : ℚ) :
    tradeOk cfg
      { entry_time := et, exit_time := xt, entry_price := ep, exit_price := xp
        position_label := lbl, pnl := pnl, commission := comm
        exit_reason := (check_exit_conditions cfg position price).reason
        size_closed := (check_exit_conditions cfg position price).closePercent } := by
  rcases check_exit_cases cfg position price with ⟨_, hr, hc⟩ | ⟨hr, hc⟩ |
    ⟨hr, hc⟩ | ⟨lvl, hr, hc⟩ <;> constructor
  · intro l hl; rw [hr] at hl; exact absurd hl (by simp)
  · intro h1; rw [hc] at h1; exact absurd h1 (by norm_num)
  · intro l hl; rw [hr] at hl; exact absurd hl (by simp)
  · intro _; exact Or.inl hr
  · intro l hl; rw [hr] at hl; exact absurd hl (by simp)
  · intro _; exact Or.inr hr
  · intro l hl; exact hc
  · intro h1; rw [hc] at h1; exact absurd h1 (ne_of_lt h2)

/-- The invariant threaded through the bar loop for C10: an open position has
strictly positive remaining size, and all recorded trades are well-formed. -/
def simInv (cfg : SimConfig) (s : SimState) : Prop :=
  (s.position.size ≠ 0 → 0 < s.position.remaining_size) ∧
  ∀ tr ∈ s.trades, tradeOk cfg tr

/-- `barMark` does not change the position or the trades. -/
lemma barMark_position_trades (leverage margin_pct : ℚ) (t : ℕ) (price : ℚ)
    (s : SimState) :
    (barMark leverage margin_pct t price s).position = s.position ∧
    (barMark leverage margin_pct t price s).trades = s.trades := by
  simp only [barMark]
  repeat' split
  all_goals exact ⟨rfl, rfl⟩

/-- `barClose` preserves the C10 invariant when `tp_close_percent ∈ (0, 1)`. -/
lemma barClose_inv (cfg : SimConfig) (leverage : ℚ) (t : ℕ) (price : ℚ)
    (s : SimState) (h1 : 0 < cfg.tp_close_percent) (h2 : cfg.tp_close_percent < 1)
    (hinv : simInv cfg s) : simInv cfg (barClose cfg leverage t price s) := by
  unfold simInv at hinv ⊢
  simp only [barClose]
  split
  next hsz =>
    split
    next hclose =>
      have htr : ∀ tr ∈ s.trades ++
          [{ entry_time := s.position.entry_time, exit_time := t
             entry_price := s.position.entry_price, exit_price := price
             position_label := if s.position.direction = 1 then "Long" else "Short"
             pnl := (close_position cfg s.position price
               (check_exit_conditions cfg s.position price).closePercent leverage).1
             commission := (close_position cfg s.position price
               (check_exit_conditions cfg s.position price).closePercent leverage).2
             exit_reason := (check_exit_conditions cfg s.position price).reason
             size_closed := (check_exit_conditions cfg s.position price).closePercent
             : TradeRec }], tradeOk cfg tr := by
        intro tr htr
        rcases List.mem_append.1 htr with h | h
        · exact hinv.2 tr h
        · rw [List.mem_singleton.1 h]
          exact tradeOk_of_check cfg s.position price h2 _ _ _ _ _ _ _
      split
      next hcp =>
        refine ⟨?_, htr⟩
        intro _
        have hrem : 0 < s.position.remaining_size := hinv.1 hsz
        have hcp' : (check_exit_conditions cfg s.position price).closePercent =
            cfg.tp_close_percent := by
          rcases check_exit_cases cfg s.position price with ⟨hb, _, _⟩ | ⟨_, hc⟩ |
            ⟨_, hc⟩ | ⟨lvl, _, hc⟩
          · rw [hclose] at hb; exact absurd hb (by simp)
          · rw [hc] at hcp; exact absurd hcp (by norm_num)
          · rw [hc] at hcp; exact absurd hcp (by norm_num)
          · exact hc
        have hpos : 0 < s.position.remaining_size *
            (1 - (check_exit_conditions cfg s.position price).closePercent) := by
          rw [hcp']
          exact mul_pos hrem (by linarith)
        split
        · exact hpos
        · exact hpos
      next hcp =>
        exact ⟨fun h => absurd rfl h, htr⟩
    next => exact hinv
  next => exact hinv

/-- `barEntry` preserves the C10 invariant under positive leverage, a margin
percentage in `(0, 100)`, and a positive price. -/
lemma barEntry_inv (cfg : SimConfig) (leverage margin_pct : ℚ) (t : ℕ)
    (price : ℚ) (signal : Int) (s : SimState) (hlev : 0 < leverage)
    (hm1 : 0 < margin_pct) (hm2 : margin_pct < 100) (hp : 0 < price)
    (hinv : simInv cfg s) :
    simInv cfg (barEntry cfg leverage margin_pct t price signal s) := by
  unfold simInv at hinv ⊢
  simp only [barEntry]
  split
  next hc =>
    split
    next hmar =>
      refine ⟨?_, hinv.2⟩
      intro hsz
      have hbal : 0 ≤ s.balance := by
        by_contra hneg
        push_neg at hneg
        have hf : margin_pct / 100 - 1 < 0 := by linarith
        have := mul_pos_of_neg_of_neg hneg hf
        nlinarith
      have hnn : 0 ≤ s.balance * (margin_pct / 100) * leverage / price :=
        div_nonneg
          (mul_nonneg (mul_nonneg hbal (by positivity)) hlev.le) hp.le
      exact lt_of_le_of_ne hnn (Ne.symm hsz)
    next => exact hinv
  next => exact hinv

/-- The C10 invariant holds after folding any list of bars with positive
prices. -/
lemma foldl_simInv (cfg : SimConfig) (leverage margin_pct : ℚ)
    (h1 : 0 < cfg.tp_close_percent) (h2 : cfg.tp_close_percent < 1)
    (hlev : 0 < leverage) (hm1 : 0 < margin_pct) (hm2 : margin_pct < 100) :
    ∀ (l : List (ℕ × SignalRow)) (s : SimState),
      (∀ p ∈ l, 0 < p.2.price) → simInv cfg s →
      simInv cfg (l.foldl
        (fun s p => processBar cfg leverage margin_pct p.1 p.2.price p.2.signal s) s)
  | [], s, _, hinv => hinv
  | p :: l, s, hp, hinv => by
    rw [List.foldl_cons]
    refine foldl_simInv cfg leverage margin_pct h1 h2 hlev hm1 hm2 l _
      (fun q hq => hp q (List.mem_cons_of_mem p hq)) ?_
    have hpp : 0 < p.2.price := hp p (List.mem_cons_self p l)
    have hclose := barClose_inv cfg leverage p.1 p.2.price s h1 h2 hinv
    have hentry := barEntry_inv cfg leverage margin_pct p.1 p.2.price p.2.signal
      _ hlev hm1 hm2 hpp hclose
    have hmark := barMark_position_trades leverage margin_pct p.1 p.2.price
      (barEntry cfg leverage margin_pct p.1 p.2.price p.2.signal
        (barClose cfg leverage p.1 p.2.price s))
    unfold simInv at hentry ⊢
    unfold processBar
    rw [hmark.1, hmark.2]
    exact hentry

/-- **C10** (amended): with `tp_close` strictly between 0 and 1 *and*
positive leverage, margin strictly between 0 and 100, and positive prices,
every run keeps an open position's remaining size strictly positive, every
TP trade closes exactly the `tp_close` fraction, and every 100% close is a
"Stop Loss" or "Trailing Stop"; hence exhausting the TP ladder never returns
the position to flat — only a SL/trailing full close (or the end of the
series) does.  The margin bound is forced: at `margin_ratio = 100` the claim
fails (`C10_negative_remaining_cex`). -/
theorem C10_tp_close_fraction (cfg : SimConfig) (signals : List SignalRow)
    (initial_balance leverage margin_pct : ℚ)
    (h1 : 0 < cfg.tp_close_percent) (h2 : cfg.tp_close_percent < 1)
    (hlev : 0 < leverage) (hm1 : 0 < margin_pct) (hm2 : margin_pct < 100)
    (hprices : ∀ row ∈ signals, 0 < row.price) :
    ((runSim cfg signals initial_balance leverage margin_pct).position.size ≠ 0 →
      0 < (runSim cfg signals initial_balance leverage
        margin_pct).position.remaining_size) ∧
    ∀ tr ∈ (runSim cfg signals initial_balance leverage margin_pct).trades,
      (∀ lvl, tr.exit_reason = some (.tp lvl) →
        tr.size_closed = cfg.tp_close_percent) ∧
      (tr.size_closed = 1 →
        tr.exit_reason = some .stopLoss ∨ tr.exit_reason = some .trailingStop) := by
  have h := foldl_simInv cfg leverage margin_pct h1 h2 hlev hm1 hm2 signals.enum
    (initState initial_balance)
    (by
      intro p hp
      have : p.2 ∈ signals := by
        have hg := List.mem_enum_iff_getElem?.1 hp
        obtain ⟨hlt, heq⟩ := List.getElem?_eq_some_iff.1 hg
        exact heq ▸ List.getElem_mem hlt
      exact hprices p.2 this)
    (by
      refine ⟨fun h0 => absurd rfl h0, ?_⟩
      intro tr htr
      simp [initState] at htr)
  exact h

/-- **C10** (counterexample): the claim as stated fails at
`margin_ratio = 100`.  Balance 1000, leverage 100, long at 100; the stop-loss
bar at 98 loses 200080, leaving balance -199080 — which passes the entry
check `balance >= balance * (100/100)` *with equality* on the same bar, so a
long with *negative* size -199080*100/98 opens at 98.  The next bar (99)
crosses TP1 (98.49): a take-profit exit with `size_closed = tp_close = 1/4 ∈
(0,1)` fires and leaves `remaining_size = -1066500/7 < 0` — not strictly
positive. -/
theorem C10_negative_remaining_cex :
    (0 : ℚ) < defaultConfig.tp_close_percent ∧
    defaultConfig.tp_close_percent < 1 ∧
    ((runSim defaultConfig [⟨100, 1⟩, ⟨98, 1⟩, ⟨99, 0⟩] 1000 100 100).trades.map
      (fun tr => (tr.exit_reason, tr.size_closed))) =
      [(some .stopLoss, 1), (some (.tp 1), 1/4)] ∧
    (runSim defaultConfig [⟨100, 1⟩, ⟨98, 1⟩, ⟨99, 0⟩]
      1000 100 100).position.size ≠ 0 ∧
    (runSim defaultConfig [⟨100, 1⟩, ⟨98, 1⟩, ⟨99, 0⟩]
      1000 100 100).position.remaining_size < 0 := by
  decide

/-- Witness for `C10_tp_close_fraction`: the default config
(`tp_close = 0.25`), a long at 100 and a TP1 hit at 100.5; after the partial
close the position is still open with positive remaining size. -/
theorem C10_tp_close_fraction_witness :
    (runSim defaultConfig [⟨100, 1⟩, ⟨201/2, 0⟩] 1000 1 10).position.size ≠ 0 ∧
    0 < (runSim defaultConfig [⟨100, 1⟩, ⟨201/2, 0⟩]
      1000 1 10).position.remaining_size :=
  ⟨by decide,
    (C10_tp_close_fraction defaultConfig [⟨100, 1⟩, ⟨201/2, 0⟩] 1000 1 10
      (by norm_num [defaultConfig]) (by norm_num [defaultConfig]) (by norm_num)
      (by norm_num) (by norm_num)
      (by decide)).1
      (by decide)⟩

/-! ## Claims C3 and C4: the optimization score
(`BacktestRunner._calculate_optimization_score`) -/

/-- Python `round(x, 2)` modelled on exact rationals: round to the nearest
multiple of 1/100 (Mathlib tie rule; no claim depends on ties). -/
def round2 (x : ℚ) : ℚ := (round (x * 100) : ℤ) / 100

/-- The statistics dict as read by `_calculate_optimization_score`; `none`
models a missing key, whose lookup raises `KeyError`. -/
structure StatsDict where
  total_return : Option ℚ
  win_rate : Option ℚ
  max_drawdown : Option ℚ
  total_trades : Option ℚ
deriving Repr, DecidableEq

/-- `_calculate_optimization_score` (backtest_runner.py lines 113-138): the
four key lookups, the normalized components, the weighted sum scaled by 10
and rounded to 2 decimals; the bare `except` returns 0 on any failure — in
particular on a missing key. -/
def calculate_optimization_score (stats : StatsDict) : ℚ :=
  match stats.total_return, stats.win_rate, stats.max_drawdown,
    stats.total_trades with
  | some total_return, some win_rate, some max_drawdown, some total_trades =>
    let return_score := min (total_return / 100) 5
    let win_rate_score := win_rate / 100
    let drawdown_penalty := max 0 (1 - max_drawdown / 50)
    let trade_count_bonus := min (total_trades / 100) 1
    round2 ((return_score * 0.4 + win_rate_score * 0.3 +
      drawdown_penalty * 0.2 + trade_count_bonus * 0.1) * 10)
  | _, _, _, _ => 0

/-- `round2` is monotone. -/
lemma round2_mono {a b : ℚ} (h : a ≤ b) : round2 a ≤ round2 b := by
  unfold round2
  have hr : round (a * 100) ≤ round (b * 100) := by
    rw [round_eq, round_eq]
    exact Int.floor_le_floor (by linarith)
  rw [div_le_div_iff_of_pos_right (by norm_num : (0:ℚ) < 100)]
  exact_mod_cast hr

/-- `round2` fixes integer multiples of 1/100; the two endpoint values we
need. -/
lemma round2_neg_four : round2 (-4 : ℚ) = -4 := by
  unfold round2
  rw [show ((-4 : ℚ) * 100) = ((-400 : ℤ) : ℚ) by norm_num, round_intCast]
  norm_num

lemma round2_twenty_six : round2 (26 : ℚ) = 26 := by
  unfold round2
  rw [show ((26 : ℚ) * 100) = ((2600 : ℤ) : ℚ) by norm_num, round_intCast]
  norm_num

/-- **C3** (amended): on the claim's domain the score equals the claimed
weighted formula *rounded to 2 decimals*, and its sharp range is `[-4, 26]`,
not `[0, 10]`: the return term alone spans `[-0.4, 2] x 10`. -/
theorem C3_score_formula_range (r w d t : ℚ) (hr : -100 ≤ r) (hw0 : 0 ≤ w)
    (hw1 : w ≤ 100) (hd0 : 0 ≤ d) (hd1 : d ≤ 100) (ht : 0 ≤ t) :
    calculate_optimization_score ⟨some r, some w, some d, some t⟩ =
      round2 (10 * (0.4 * min (r / 100) 5 + 0.3 * (w / 100) +
        0.2 * max 0 (1 - d / 50) + 0.1 * min (t / 100) 1)) ∧
    -4 ≤ calculate_optimization_score ⟨some r, some w, some d, some t⟩ ∧
    calculate_optimization_score ⟨some r, some w, some d, some t⟩ ≤ 26 := by
  have hmin0 : -1 ≤ min (r / 100) 5 := le_min (by linarith) (by norm_num)
  have hmin1 : min (r / 100) 5 ≤ 5 := min_le_right _ _
  have hwl : 0 ≤ w / 100 := by linarith
  have hwu : w / 100 ≤ 1 := by linarith
  have hdl : 0 ≤ max 0 (1 - d / 50) := le_max_left _ _
  have hdu : max 0 (1 - d / 50) ≤ 1 := max_le (by norm_num) (by linarith)
  have htl : 0 ≤ min (t / 100) 1 := le_min (by linarith) (by norm_num)
  have htu : min (t / 100) 1 ≤ 1 := min_le_right _ _
  have harg :
      (min (r / 100) 5 * 0.4 + w / 100 * 0.3 + max 0 (1 - d / 50) * 0.2 +
        min (t / 100) 1 * 0.1) * 10 =
      10 * (0.4 * min (r / 100) 5 + 0.3 * (w / 100) +
        0.2 * max 0 (1 - d / 50) + 0.1 * min (t / 100) 1) := by ring
  have hscore : calculate_optimization_score ⟨some r, some w, some d, some t⟩ =
      round2 ((min (r / 100) 5 * 0.4 + w / 100 * 0.3 +
        max 0 (1 - d / 50) * 0.2 + min (t / 100) 1 * 0.1) * 10) := rfl
  refine ⟨by rw [hscore, harg], ?_, ?_⟩
  · rw [hscore, ← round2_neg_four]
    exact round2_mono (by nlinarith)
  · rw [hscore, ← round2_twenty_six]
    exact round2_mono (by nlinarith)

/-- Witness for `C3_score_formula_range` at the all-zero statistics record
(score 2, inside `[-4, 26]`). -/
theorem C3_score_formula_range_witness :
    calculate_optimization_score ⟨some 0, some 0, some 0, some 0⟩ =
      round2 (10 * (0.4 * min ((0:ℚ) / 100) 5 + 0.3 * ((0:ℚ) / 100) +
        0.2 * max 0 (1 - (0:ℚ) / 50) + 0.1 * min ((0:ℚ) / 100) 1)) ∧
    -4 ≤ calculate_optimization_score ⟨some 0, some 0, some 0, some 0⟩ ∧
    calculate_optimization_score ⟨some 0, some 0, some 0, some 0⟩ ≤ 26 :=
  C3_score_formula_range 0 0 0 0 (by norm_num) (by norm_num) (by norm_num)
    (by norm_num) (by norm_num) (by norm_num)

/-- **C3** (counterexample): statistics inside the claim's domain
(return 600 ≥ -100, win rate 100, drawdown 0, 100 trades) score 26, which the
claimed formula also yields — but 26 is far outside the claimed `[0, 10]`. -/
theorem C3_score_above_ten_cex :
    calculate_optimization_score ⟨some 600, some 100, some 0, some 100⟩ = 26 ∧
    ¬ (calculate_optimization_score ⟨some 600, some 100, some 0, some 100⟩ ≤ 10) := by
  have h : calculate_optimization_score ⟨some 600, some 100, some 0, some 100⟩ =
      round2 26 := by
    unfold calculate_optimization_score
    norm_num
  rw [h, round2_twenty_six]
  norm_num

/-- **C4** (amended): the bare `except` path — any missing statistics key —
yields score 0, so no exception propagates; but there is *no* zero-trades
special case (see `C4_zero_trades_cex`). -/
theorem C4_exception_returns_zero (stats : StatsDict)
    (h : stats.total_return = none ∨ stats.win_rate = none ∨
      stats.max_drawdown = none ∨ stats.total_trades = none) :
    calculate_optimization_score stats = 0 := by
  obtain ⟨r, w, d, t⟩ := stats
  unfold calculate_optimization_score
  rcases r with _ | r <;> rcases w with _ | w <;> rcases d with _ | d <;>
    rcases t with _ | t <;> simp_all

/-- Witness for `C4_exception_returns_zero`: a record missing
`total_return`. -/
theorem C4_exception_returns_zero_witness :
    calculate_optimization_score ⟨none, some 50, some 10, some 5⟩ = 0 :=
  C4_exception_returns_zero ⟨none, some 50, some 10, some 5⟩ (Or.inl rfl)

/-- **C4** (counterexample): a degenerate zero-trades record (all metrics 0)
scores 2 — the drawdown-penalty term contributes `0.2 x 10` — not 0. -/
theorem C4_zero_trades_cex :
    calculate_optimization_score ⟨some 0, some 0, some 0, some 0⟩ = 2 ∧
    calculate_optimization_score ⟨some 0, some 0, some 0, some 0⟩ ≠ 0 := by
  have h : calculate_optimization_score ⟨some 0, some 0, some 0, some 0⟩ =
      round2 2 := by
    unfold calculate_optimization_score
    norm_num
  have h2 : round2 (2 : ℚ) = 2 := by
    unfold round2
    rw [show ((2 : ℚ) * 100) = ((200 : ℤ) : ℚ) by norm_num, round_intCast]
    norm_num
  rw [h, h2]
  norm_num

/-! ## Claim C5: save-failure accounting in the multi-symbol scheduler -/

/-- Outcome of one symbol's optimization future in
`PerCoinOptimizer._process_symbols_in_batches`: `future.result()` returned
`(success, result)` with a subsequent save attempt, or the optimization
failed (`success` falsy or `result` empty), or `future.result()` raised. -/
inductive SymbolOutcome
  | optSuccess (saveOk : Bool)
  | optFailed
  | raised
deriving Repr, DecidableEq

/-- The scheduler lists mutated by the completion loop
(`self.completed_symbols`, `self.failed_symbols`, `self.best_results`). -/
structure SchedState where
  completed_symbols : List String
  failed_symbols : List String
  best_results : List String
deriving Repr, DecidableEq

/-- The body of the `for future in as_completed(...)` loop (lines 546-572):
a success stores into `best_results` and then attempts the save — a failed
save appends the symbol to `failed_symbols`, the *same* list that receives
optimization failures and raised exceptions; only a successful save appends
to `completed_symbols`. -/
def handleCompletedSymbol (symbol : String) (outcome : SymbolOutcome)
    (s : SchedState) : SchedState :=
  match outcome with
  | .optSuccess true =>
    { s with best_results := s.best_results ++ [symbol]
             completed_symbols := s.completed_symbols ++ [symbol] }
  | .optSuccess false =>
    { s with best_results := s.best_results ++ [symbol]
             failed_symbols := s.failed_symbols ++ [symbol] }
  | .optFailed =>
    { s with failed_symbols := s.failed_symbols ++ [symbol] }
  | .raised =>
    { s with failed_symbols := s.failed_symbols ++ [symbol] }

/-- Folding the completion handler over the finished futures of a batch. -/
def processCompletions (events : List (String × SymbolOutcome))
    (s : SchedState) : SchedState :=
  events.foldl (fun s e => handleCompletedSymbol e.1 e.2 s) s

/-- **C5** (counterexample): one symbol optimizes successfully but its save
fails, another's optimization itself fails — both end up in the *same*
`failed_symbols` list (and neither in `completed_symbols`); the save-failed
symbol is distinguishable only through `best_results`. -/
theorem C5_save_failure_same_list_cex :
    (processCompletions
      [("BTCUSDT", .optSuccess false), ("ETHUSDT", .optFailed)]
      ⟨[], [], []⟩).failed_symbols = ["BTCUSDT", "ETHUSDT"] ∧
    (processCompletions
      [("BTCUSDT", .optSuccess false), ("ETHUSDT", .optFailed)]
      ⟨[], [], []⟩).completed_symbols = [] ∧
    (processCompletions
      [("BTCUSDT", .optSuccess false), ("ETHUSDT", .optFailed)]
      ⟨[], [], []⟩).best_results = ["BTCUSDT"] := by
  decide

/-- **C5** (amended): a symbol whose optimization succeeds but whose
coin-settings save fails is logged distinctly but appended to the same
`failed_symbols` list as optimization failures; it is not added to
`completed_symbols`, and remains distinguishable only because its result was
already stored in `best_results` before the save attempt. -/
theorem C5_save_failure_accounting (symbol : String) (s : SchedState) :
    (handleCompletedSymbol symbol (.optSuccess false) s).failed_symbols =
      s.failed_symbols ++ [symbol] ∧
    (handleCompletedSymbol symbol .optFailed s).failed_symbols =
      s.failed_symbols ++ [symbol] ∧
    (handleCompletedSymbol symbol (.optSuccess false) s).completed_symbols =
      s.completed_symbols ∧
    (handleCompletedSymbol symbol (.optSuccess false) s).best_results =
      s.best_results ++ [symbol] ∧
    (handleCompletedSymbol symbol .optFailed s).best_results = s.best_results :=
  ⟨rfl, rfl, rfl, rfl, rfl⟩

/-! ## Claim C7: the weak-signal filter of `MACDSMAStrategy.generate_signals`

The pandas/numpy pipeline is embedded index-wise: a column is a function
`ℕ → Option ℚ`, where `none` is NaN.  Arithmetic propagates NaN; comparisons
on NaN are `false` (numpy semantics). -/

/-- Strategy parameters (`macd_fast`, `macd_slow`, `macd_signal`,
`sma_length`). -/
structure StrategyParams where
  macd_fast : ℕ
  macd_slow : ℕ
  macd_signal : ℕ
  sma_length : ℕ
deriving Repr, DecidableEq

/-- NaN-propagating binary arithmetic. -/
def nanBin (f : ℚ → ℚ → ℚ) : Option ℚ → Option ℚ → Option ℚ
  | some x, some y => some (f x y)
  | _, _ => none

/-- `a > b` with NaN comparing false. -/
def nanGTb : Option ℚ → Option ℚ → Bool
  | some x, some y => decide (y < x)
  | _, _ => false

/-- `a < b` with NaN comparing false. -/
def nanLTb : Option ℚ → Option ℚ → Bool
  | some x, some y => decide (x < y)
  | _, _ => false

/-- `a ≥ b` with NaN comparing false. -/
def nanGEb : Option ℚ → Option ℚ → Bool
  | some x, some y => decide (y ≤ x)
  | _, _ => false

/-- `a ≤ b` with NaN comparing false. -/
def nanLEb : Option ℚ → Option ℚ → Bool
  | some x, some y => decide (x ≤ y)
  | _, _ => false

/-- The `close` column. -/
def closeCol (closes : List ℚ) (i : ℕ) : Option ℚ := closes[i]?

/-- `talib.SMA(column, n)` as used on these columns, whose NaNs form a
prefix: the Python talib wrapper skips the leading-NaN prefix (`check_begidx1`)
and applies the `n-1` lookback from the first valid value, which on a
prefix-NaN column equals: the mean of the window of the last `n` entries when
they are all defined, NaN otherwise.  The same function is
`pandas.rolling(n).mean()` (used for the 20-bar strength normalizers). -/
def smaCol (n : ℕ) (f : ℕ → Option ℚ) (i : ℕ) : Option ℚ :=
  if 0 < n ∧ n ≤ i + 1 then
    let w := (List.range' (i + 1 - n) n).map f
    if w.all Option.isSome then some ((w.map (fun o => o.getD 0)).sum / n)
    else none
  else none

/-- `pandas.shift(k)`: NaN for the first `k` rows. -/
def shiftCol (k : ℕ) (f : ℕ → Option ℚ) (i : ℕ) : Option ℚ :=
  if i < k then none else f (i - k)

/-- Forward fill: the last defined value at `j ≤ i`. -/
def ffillCol (f : ℕ → Option ℚ) (i : ℕ) : Option ℚ :=
  ((List.range (i + 1)).reverse.map f).findSome? id

/-- `fillna(method='ffill').fillna(method='bfill')` on a column of length
`len`: forward fill, then backfill the leading gap from the first defined
value. -/
def fillCol (f : ℕ → Option ℚ) (len i : ℕ) : Option ℚ :=
  match ffillCol f i with
  | some v => some v
  | none => (((List.range len).drop (i + 1)).map f).findSome? id

/-- `calculate_indicators` raw columns (before `fillna`):
`fast_ma`, `slow_ma`, `very_slow_ma` are SMAs of `close`. -/
def fast_ma_raw (closes : List ℚ) (p : StrategyParams) : ℕ → Option ℚ :=
  smaCol p.macd_fast (closeCol closes)

def slow_ma_raw (closes : List ℚ) (p : StrategyParams) : ℕ → Option ℚ :=
  smaCol p.macd_slow (closeCol closes)

def very_slow_ma_raw (closes : List ℚ) (p : StrategyParams) : ℕ → Option ℚ :=
  smaCol p.sma_length (closeCol closes)

/-- `macd = fast_ma - slow_ma`. -/
def macd_raw (closes : List ℚ) (p : StrategyParams) (i : ℕ) : Option ℚ :=
  nanBin (fun a b => a - b) (fast_ma_raw closes p i) (slow_ma_raw closes p i)

/-- `macd_signal = talib.SMA(macd, signal_length)`. -/
def macd_signal_raw (closes : List ℚ) (p : StrategyParams) : ℕ → Option ℚ :=
  smaCol p.macd_signal (macd_raw closes p)

/-- `macd_histogram = macd - macd_signal`. -/
def macd_histogram_raw (closes : List ℚ) (p : StrategyParams) (i : ℕ) : Option ℚ :=
  nanBin (fun a b => a - b) (macd_raw closes p i) (macd_signal_raw closes p i)

/-- The filled columns returned by `calculate_indicators`. -/
def closeF (closes : List ℚ) (i : ℕ) : Option ℚ :=
  fillCol (closeCol closes) closes.length i

def fast_maF (closes : List ℚ) (p : StrategyParams) (i : ℕ) : Option ℚ :=
  fillCol (fast_ma_raw closes p) closes.length i

def slow_maF (closes : List ℚ) (p : StrategyParams) (i : ℕ) : Option ℚ :=
  fillCol (slow_ma_raw closes p) closes.length i

def very_slow_maF (closes : List ℚ) (p : StrategyParams) (i : ℕ) : Option ℚ :=
  fillCol (very_slow_ma_raw closes p) closes.length i

def macdF (closes : List ℚ) (p : StrategyParams) (i : ℕ) : Option ℚ :=
  fillCol (macd_raw closes p) closes.length i

def histF (closes : List ℚ) (p : StrategyParams) (i : ℕ) : Option ℚ :=
  fillCol (macd_histogram_raw closes p) closes.length i

/-- `crossover(hist, 0)`: `(hist > 0) & (hist.shift(1) <= 0)`. -/
def hist_crossover_up (closes : List ℚ) (p : StrategyParams) (i : ℕ) : Bool :=
  nanGTb (histF closes p i) (some 0) &&
    nanLEb (shiftCol 1 (histF closes p) i) (some 0)

/-- `crossunder(hist, 0)`: `(hist < 0) & (hist.shift(1) >= 0)`. -/
def hist_crossunder_down (closes : List ℚ) (p : StrategyParams) (i : ℕ) : Bool :=
  nanLTb (histF closes p i) (some 0) &&
    nanGEb (shiftCol 1 (histF closes p) i) (some 0)

/-- The long entry condition (lines 86-91). -/
def long_condition (closes : List ℚ) (p : StrategyParams) (i : ℕ) : Bool :=
  hist_crossover_up closes p i &&
    nanGTb (macdF closes p i) (some 0) &&
    nanGTb (fast_maF closes p i) (slow_maF closes p i) &&
    nanGTb (shiftCol p.macd_slow (closeF closes) i) (very_slow_maF closes p i)

/-- The short entry condition (lines 94-99). -/
def short_condition (closes : List ℚ) (p : StrategyParams) (i : ℕ) : Bool :=
  hist_crossunder_down closes p i &&
    nanLTb (macdF closes p i) (some 0) &&
    nanLTb (fast_maF closes p i) (slow_maF closes p i) &&
    nanLTb (shiftCol p.macd_slow (closeF closes) i) (very_slow_maF closes p i)

/-- `cancel_long = slow_ma < very_slow_ma`. -/
def cancel_long (closes : List ℚ) (p : StrategyParams) (i : ℕ) : Bool :=
  nanLTb (slow_maF closes p i) (very_slow_maF closes p i)

/-- `cancel_short = slow_ma > very_slow_ma`. -/
def cancel_short (closes : List ℚ) (p : StrategyParams) (i : ℕ) : Bool :=
  nanGTb (slow_maF closes p i) (very_slow_maF closes p i)

/-- The signal column after the two `.loc` assignments (lines 106-107; the
short assignment runs second, though the two conditions are disjoint). -/
def rawSignal (closes : List ℚ) (p : StrategyParams) (i : ℕ) : Int :=
  if short_condition closes p i && !cancel_short closes p i then -1
  else if long_condition closes p i && !cancel_long closes p i then 1
  else 0

/-- `np.abs(macd)` over the filled column. -/
def abs_macd (closes : List ℚ) (p : StrategyParams) (i : ℕ) : Option ℚ :=
  (macdF closes p i).map (fun x => |x|)

/-- `np.abs(hist)` over the filled column. -/
def abs_hist (closes : List ℚ) (p : StrategyParams) (i : ℕ) : Option ℚ :=
  (histF closes p i).map (fun x => |x|)

/-- `macd_strength = |macd| / (|macd|.rolling(20).mean() + 1e-8)`; NaN for
the first 19 bars, where the rolling mean is undefined. -/
def macd_strength (closes : List ℚ) (p : StrategyParams) (i : ℕ) : Option ℚ :=
  nanBin (fun a m => a / (m + 0.00000001)) (abs_macd closes p i)
    (smaCol 20 (abs_macd closes p) i)

/-- `hist_strength = |hist| / (|hist|.rolling(20).mean() + 1e-8)`. -/
def hist_strength (closes : List ℚ) (p : StrategyParams) (i : ℕ) : Option ℚ :=
  nanBin (fun a m => a / (m + 0.00000001)) (abs_hist closes p i)
    (smaCol 20 (abs_hist closes p) i)

/-- `trend_strength` via the nested `np.where` (lines 117-125). -/
def trend_strength (closes : List ℚ) (p : StrategyParams) (i : ℕ) : Option ℚ :=
  if rawSignal closes p i = 1 then
    nanBin (fun c v => max 0 ((c - v) / v)) (closeF closes i)
      (very_slow_maF closes p i)
  else if rawSignal closes p i = -1 then
    nanBin (fun c v => max 0 ((v - c) / v)) (closeF closes i)
      (very_slow_maF closes p i)
  else some 0

/-- The blended strength
`|signal| * np.minimum(1.0, 0.4*macd_strength + 0.4*hist_strength +
0.2*trend_strength)` (lines 127-131), *before* the weak filter and the final
`fillna(0)`.  NaN (from the 20-bar normalizers on early bars) propagates. -/
def signal_strength_raw (closes : List ℚ) (p : StrategyParams) (i : ℕ) :
    Option ℚ :=
  (nanBin (fun a b => a + b)
    (nanBin (fun a b => a + b)
      ((macd_strength closes p i).map (fun x => x * 0.4))
      ((hist_strength closes p i).map (fun x => x * 0.4)))
    ((trend_strength closes p i).map (fun x => x * 0.2))).map
    (fun b => (|rawSignal closes p i| : ℚ) * min 1 b)

/-- The weak-signal test `signal_strength < 0.2` (line 134): false on NaN. -/
def weak_signal (closes : List ℚ) (p : StrategyParams) (i : ℕ) : Bool :=
  match signal_strength_raw closes p i with
  | some s => decide (s < 0.2)
  | none => false

/-- The final signal column: weak signals zeroed (line 135). -/
def signalDir (closes : List ℚ) (p : StrategyParams) (i : ℕ) : Int :=
  if weak_signal closes p i then 0 else rawSignal closes p i

/-- The final strength column after `signals.fillna(0)` (line 143). -/
def signalStrength (closes : List ℚ) (p : StrategyParams) (i : ℕ) : ℚ :=
  (signal_strength_raw closes p i).getD 0

/-- One row of the returned signals frame (`price`, `signal`,
`signal_strength`). -/
structure SignalPoint where
  price : ℚ
  signal : Int
  signal_strength : ℚ
deriving Repr, DecidableEq

/-- `MACDSMAStrategy.generate_signals`: raises on an empty frame, and (via
`calculate_indicators`) on fewer than `sma_length` candles; otherwise one
`SignalPoint` per candle. -/
def generate_signals (closes : List ℚ) (p : StrategyParams) :
    Except String (List SignalPoint) :=
  if closes.isEmpty then
    .error "No data available for signal generation"
  else if closes.length < p.sma_length then
    .error "Insufficient data points"
  else
    .ok ((List.range closes.length).map (fun i =>
      { price := (closeCol closes i).getD 0
        signal := signalDir closes p i
        signal_strength := signalStrength closes p i }))

/-- **C7** (amended): the weak-signal filter works exactly on the points
whose blended strength is *defined*: whenever
`signal_strength_raw i = some s` with `s < 0.2`, the returned direction at
`i` is 0.  (On bars where the 20-bar rolling normalizers are still NaN —
possible for entries at index < 19, hence for `macd_slow ≤ 18` — the filter
does not fire and `fillna(0)` reports strength 0 with a nonzero direction:
see `C7_weak_filter_cex`.) -/
theorem C7_weak_signal_filter (closes : List ℚ) (p : StrategyParams) (i : ℕ)
    (s : ℚ) (hs : signal_strength_raw closes p i = some s) (hlt : s < 0.2) :
    signalDir closes p i = 0 ∧
    ∀ pts, generate_signals closes p = .ok pts →
      ∀ h : i < pts.length, (pts.get ⟨i, h⟩).signal = 0 := by
  have hw : weak_signal closes p i = true := by
    unfold weak_signal
    rw [hs]
    exact decide_eq_true hlt
  have hdir : signalDir closes p i = 0 := by
    unfold signalDir
    rw [hw]
    rfl
  refine ⟨hdir, ?_⟩
  intro pts hok h
  unfold generate_signals at hok
  split at hok
  · exact absurd hok (by simp)
  · split at hok
    · exact absurd hok (by simp)
    · have hpts : pts = (List.range closes.length).map (fun i =>
          ({ price := (closeCol closes i).getD 0
             signal := signalDir closes p i
             signal_strength := signalStrength closes p i } : SignalPoint)) :=
        (Except.ok.injEq _ _ ▸ hok).symm
      subst hpts
      have hi : i < closes.length := by simpa using h
      simp [List.get_eq_getElem, List.getElem_map, List.getElem_range, hdir]

/-- The closes of the C7 counterexample: 8 bars, a dip at index 3 and a
recovery at index 4 producing a long entry at bar 4 (before the 20-bar
strength normalizers are defined). -/
def cexCloses : List ℚ := [100, 130, 120, 90, 160, 160, 160, 160]

/-- The C7 parameter configuration: `macd_fast 2, macd_slow 3,
macd_signal 2, sma_length 3` (with `sma_length = macd_slow` the cancel
conditions never fire). -/
def cexParams : StrategyParams := ⟨2, 3, 2, 3⟩

set_option maxRecDepth 8192 in
/-- **C7** (counterexample): on `cexCloses` with `cexParams`,
`generate_signals` returns a point (index 4) whose reported blended strength
is 0 < 0.2 yet whose direction is 1 — the early-bar NaN strength escapes the
filter and `fillna(0)` then reports 0. -/
theorem C7_weak_filter_cex :
    (generate_signals cexCloses cexParams).toOption = some
      [{ price := 100, signal := 0, signal_strength := 0 },
       { price := 130, signal := 0, signal_strength := 0 },
       { price := 120, signal := 0, signal_strength := 0 },
       { price := 90, signal := 0, signal_strength := 0 },
       { price := 160, signal := 1, signal_strength := 0 },
       { price := 160, signal := 0, signal_strength := 0 },
       { price := 160, signal := 0, signal_strength := 0 },
       { price := 160, signal := 0, signal_strength := 0 }] ∧
    ((0 : ℚ) < 0.2) := by
  decide

set_option maxRecDepth 8192 in
/-- Witness for `C7_weak_signal_filter`: a constant 21-bar series, where the
blended strength at bar 20 is defined and equal to 0 < 0.2, and the direction
is 0. -/
theorem C7_weak_signal_filter_witness :
    signal_strength_raw (List.replicate 21 100) cexParams 20 = some 0 ∧
    signalDir (List.replicate 21 100) cexParams 20 = 0 :=
  ⟨by decide,
    (C7_weak_signal_filter (List.replicate 21 100) cexParams 20 0 (by decide)
      (by norm_num)).1⟩
